import Mathlib

/-!
Shallow embedding of `scripts/verify_version.py`, a release-verification
script that checks version-string consistency between a git tag, the
`pyproject.toml` manifest, the module file `a2ui_pydantic/__init__.py`,
and (softly) `README.md`.

Python strings are modelled as `List Char` (sequences of code points).
Each `print` call is one `Msg`, tagged with the channel it goes to
(`sys.stdout` by default, `sys.stderr` when the code passes
`file=sys.stderr`).  `sys.exit(n)` is modelled by the final
`ProcResult.exitCode`.  The two `re.search` calls are modelled by
`reSearchFirst`, the leftmost-match semantics of the key-value pattern:
key, optional whitespace, equals sign, optional whitespace, then a quoted
nonempty value, whose capture group is returned.  At a
fixed start position this pattern matches by maximal munch, since none of
`\s`, `=`, the quote class and the negated quote class overlap with the
character that must follow them.
-/

namespace VerifyVersion

/-- Output channel of a printed message. -/
inductive Chan where
  | stdout
  | stderr
deriving DecidableEq

/-- One `print` call: the channel it targets and the printed text. -/
structure Msg where
  chan : Chan
  text : String
deriving DecidableEq

/-- A plain `print(...)` call, going to standard output. -/
def outMsg (s : String) : Msg := ⟨Chan.stdout, s⟩

/-- The single-quote character, a delimiter accepted by the version regexes. -/
def squote : Char := Char.ofNat 39

/-- The whitespace character class of the Python regexes.  On str patterns
(no ASCII flag) `re` matches the full Unicode whitespace set: U+0009-U+000D,
U+001C-U+0020, U+0085, U+00A0, U+1680, U+2000-U+200A, U+2028, U+2029,
U+202F, U+205F and U+3000. -/
def pyIsSpace (c : Char) : Bool :=
  (0x09 ≤ c.toNat && c.toNat ≤ 0x0D) ||
  (0x1C ≤ c.toNat && c.toNat ≤ 0x20) ||
  c.toNat = 0x85 || c.toNat = 0xA0 || c.toNat = 0x1680 ||
  (0x2000 ≤ c.toNat && c.toNat ≤ 0x200A) ||
  c.toNat = 0x2028 || c.toNat = 0x2029 ||
  c.toNat = 0x202F || c.toNat = 0x205F || c.toNat = 0x3000

/-- The quote character class of the version regexes: double or single quote. -/
def isQuote (c : Char) : Bool := c = '"' || c = squote

/-- `leadsWith needle hay`: Python `hay.startswith(needle)` at the character level. -/
def leadsWith : List Char → List Char → Bool
  | [], _ => true
  | _ :: _, [] => false
  | a :: as, b :: bs => a = b && leadsWith as bs

/-- `hasSub needle hay`: Python `needle in hay`, substring containment. -/
def hasSub (needle : List Char) : List Char → Bool
  | [] => needle.isEmpty
  | c :: rest => leadsWith needle (c :: rest) || hasSub needle rest

/-- Match a literal key at the front of `s`; on success return the remainder. -/
def dropLit : List Char → List Char → Option (List Char)
  | [], s => some s
  | _ :: _, [] => none
  | k :: ks, c :: cs => if c = k then dropLit ks cs else none

/-- Anchored match of the key-value pattern at the start of `s`,
returning the capture group on success. -/
def matchKeyValueAt (key s : List Char) : Option (List Char) :=
  match dropLit key s with
  | none => none
  | some r1 =>
    match r1.dropWhile pyIsSpace with
    | [] => none
    | e :: r2 =>
      if e = '=' then
        match r2.dropWhile pyIsSpace with
        | [] => none
        | q :: r3 =>
          if isQuote q then
            match r3.dropWhile (fun ch => !isQuote ch) with
            | [] => none
            | _ :: _ =>
              if (r3.takeWhile (fun ch => !isQuote ch)).isEmpty then none
              else some (r3.takeWhile (fun ch => !isQuote ch))
          else none
      else none

/-- `re.search` for the key-value pattern: try each start position
left to right, return the capture group of the leftmost match. -/
def reSearchFirst (key : List Char) : List Char → Option (List Char)
  | [] => none
  | c :: rest =>
    match matchKeyValueAt key (c :: rest) with
    | some v => some v
    | none => reSearchFirst key rest

/-- `extract_version_from_tag`: remove a leading `"v"` if present. -/
def extract_version_from_tag (tag : List Char) : List Char :=
  if leadsWith ['v'] tag then tag.drop 1 else tag

/-- The three fixed-path file-system inputs of one invocation: content of
`pyproject.toml`, `a2ui_pydantic/__init__.py` and `README.md`, each `none`
when the file does not exist. -/
structure FS where
  pyproject : Option (List Char)
  initFile : Option (List Char)
  readme : Option (List Char)

def pyMissingText : String := "❌ Error: pyproject.toml not found"

def pyNoVersionText : String := "❌ Error: Could not find version in pyproject.toml"

def initMissingText : String := "❌ Error: a2ui_pydantic/__init__.py not found"

def initNoVersionText : String := "❌ Error: Could not find __version__ in a2ui_pydantic/__init__.py"

/-- `get_pyproject_version`: `.error m` models printing `m` then `sys.exit(1)`.
The missing-file diagnostic is the one print of the script that passes
`file=sys.stderr`. -/
def get_pyproject_version (pyproject : Option (List Char)) : Except Msg (List Char) :=
  match pyproject with
  | none => Except.error ⟨Chan.stderr, pyMissingText⟩
  | some content =>
    match reSearchFirst "version".data content with
    | none => Except.error (outMsg pyNoVersionText)
    | some v => Except.ok v

/-- `get_init_version`: same contract against `a2ui_pydantic/__init__.py`
and the `__version__` pattern; both diagnostics go to standard output. -/
def get_init_version (initFile : Option (List Char)) : Except Msg (List Char) :=
  match initFile with
  | none => Except.error (outMsg initMissingText)
  | some content =>
    match reSearchFirst "__version__".data content with
    | none => Except.error (outMsg initNoVersionText)
    | some v => Except.ok v

def readmeFoundText : String := "✅ README.md seems to contain the correct version."

def readmeWarnText : String :=
  "⚠️  Warning: Current version not found in README.md. Please check if it needs to be updated."

/-- `check_readme_version`: advisory check of `README.md`, returning only the
messages it prints (it contributes nothing else to the run). -/
def check_readme_version (readme : Option (List Char)) (version : List Char) : List Msg :=
  match readme with
  | none => []
  | some content =>
    if hasSub version content || hasSub ('v' :: version) content then
      [outMsg readmeFoundText]
    else
      [outMsg readmeWarnText]

def tagPyMismatch (tv pv : List Char) : String :=
  "❌ Tag version (" ++ String.mk tv ++ ") does not match pyproject.toml version ("
    ++ String.mk pv ++ ")"

def tagInitMismatch (tv iv : List Char) : String :=
  "❌ Tag version (" ++ String.mk tv ++ ") does not match __init__.py __version__ ("
    ++ String.mk iv ++ ")"

def pyInitMismatch (pv iv : List Char) : String :=
  "❌ pyproject.toml version (" ++ String.mk pv ++ ") does not match __init__.py __version__ ("
    ++ String.mk iv ++ ")"

/-- The three pairwise comparisons of `main` (source lines 100-123): first
component the accumulated `errors` list, second the success messages printed,
both in program order. -/
def compareVersions (tv pv iv : List Char) : List String × List Msg :=
  let r1 : List String × List Msg :=
    if tv ≠ pv then ([tagPyMismatch tv pv], [])
    else ([], [outMsg "✅ Tag version matches pyproject.toml"])
  let r2 : List String × List Msg :=
    if tv ≠ iv then ([tagInitMismatch tv iv], [])
    else ([], [outMsg "✅ Tag version matches __init__.py"])
  let r3 : List String × List Msg :=
    if pv ≠ iv then ([pyInitMismatch pv iv], [])
    else ([], [outMsg "✅ pyproject.toml and __init__.py versions match"])
  (r1.1 ++ r2.1 ++ r3.1, r1.2 ++ r2.2 ++ r3.2)

/-- The two progress lines printed before any file is read. -/
def preamble (tag_name : List Char) : List Msg :=
  [outMsg ("🔍 Verifying version consistency for tag: " ++ String.mk tag_name),
   outMsg ("   Extracted version: " ++ String.mk (extract_version_from_tag tag_name) ++ "\n")]

/-- Result of one process invocation: the printed messages in order and the
process exit status. -/
structure ProcResult where
  out : List Msg
  exitCode : Nat
deriving DecidableEq

def failedHeaderText : String := "\n❌ Version verification failed:"

def remediationMsgs : List Msg :=
  [outMsg "\n💡 Please update the version in:",
   outMsg "   - pyproject.toml",
   outMsg "   - a2ui_pydantic/__init__.py",
   outMsg "   - README.md (if version is mentioned)"]

def allPassedText : String := "\n✅ All version checks passed!"

/-- The two file-version progress lines printed once both extractions
succeed. -/
def filePrints (pyproject_version init_version : List Char) : List Msg :=
  [outMsg ("📄 pyproject.toml version:        " ++ String.mk pyproject_version),
   outMsg ("📄 __init__.py __version__:      " ++ String.mk init_version)]

/-- Body of `main` after argument validation, for tag argument `tag_name`. -/
def runTag (tag_name : List Char) (fs : FS) : ProcResult :=
  match get_pyproject_version fs.pyproject with
  | Except.error m => ⟨preamble tag_name ++ [m], 1⟩
  | Except.ok pyproject_version =>
    match get_init_version fs.initFile with
    | Except.error m => ⟨preamble tag_name ++ [m], 1⟩
    | Except.ok init_version =>
      if (compareVersions (extract_version_from_tag tag_name) pyproject_version
            init_version).1.isEmpty then
        ⟨preamble tag_name ++ filePrints pyproject_version init_version ++
           (compareVersions (extract_version_from_tag tag_name) pyproject_version
             init_version).2 ++
           check_readme_version fs.readme (extract_version_from_tag tag_name) ++
           [outMsg allPassedText], 0⟩
      else
        ⟨preamble tag_name ++ filePrints pyproject_version init_version ++
           (compareVersions (extract_version_from_tag tag_name) pyproject_version
             init_version).2 ++
           check_readme_version fs.readme (extract_version_from_tag tag_name) ++
           [outMsg failedHeaderText] ++
           (compareVersions (extract_version_from_tag tag_name) pyproject_version
             init_version).1.map (fun e => outMsg ("   " ++ e)) ++
           remediationMsgs, 1⟩

def usageMsgs : List Msg :=
  [outMsg "Usage: python scripts/verify_version.py <tag_name>",
   outMsg "Example: python scripts/verify_version.py v0.1.0"]

/-- `main`: `argv` models `sys.argv` (element 0 the program name). -/
def main (argv : List (List Char)) (fs : FS) : ProcResult :=
  match argv with
  | [_, tag_name] => runTag tag_name fs
  | _ => ⟨usageMsgs, 1⟩

deriving instance DecidableEq for Except

/-! ### Helper lemmas -/

theorem leadsWith_iff (n : List Char) : ∀ h : List Char, leadsWith n h = true ↔ n <+: h := by
  induction n with
  | nil => intro h; simp [leadsWith]
  | cons a as ih =>
    intro h
    cases h with
    | nil => simp [leadsWith]
    | cons b bs => simp [leadsWith, ih, List.cons_prefix_cons]

theorem hasSub_iff (n : List Char) : ∀ h : List Char, hasSub n h = true ↔ n <:+: h := by
  intro h
  induction h with
  | nil => simp [hasSub, List.isEmpty_iff]
  | cons c cs ih => simp [hasSub, leadsWith_iff, ih, List.infix_cons_iff]

theorem dropWhile_head_false (p : Char → Bool) (l : List Char) (x : Char) (xs : List Char)
    (h : l.dropWhile p = x :: xs) : p x = false := by
  induction l with
  | nil => simp [List.dropWhile] at h
  | cons c cs ih =>
    rw [List.dropWhile_cons] at h
    by_cases hc : p c = true
    · rw [if_pos hc] at h; exact ih h
    · rw [if_neg hc] at h
      cases h
      exact Bool.not_eq_true _ |>.mp hc

theorem dropLit_sound (key : List Char) :
    ∀ s r : List Char, dropLit key s = some r → s = key ++ r := by
  induction key with
  | nil => intro s r h; simp [dropLit] at h; simp [h]
  | cons k ks ih =>
    intro s r h
    cases s with
    | nil => simp [dropLit] at h
    | cons c cs =>
      by_cases hck : c = k
      · rw [dropLit, if_pos hck] at h
        subst hck
        simp [ih cs r h]
      · rw [dropLit, if_neg hck] at h
        exact absurd h (by simp)

/-- Soundness of the anchored pattern match: a successful match decomposes the
input into key, whitespace, equals sign, whitespace, an opening quote, the
nonempty quote-free captured value, a closing quote and a remainder. -/
theorem matchKeyValueAt_sound (key s v : List Char) (h : matchKeyValueAt key s = some v) :
    v ≠ [] ∧ (∀ ch ∈ v, isQuote ch = false) ∧
    ∃ ws1 ws2 : List Char, ∃ q1 q2 : Char, ∃ post : List Char,
      (∀ ch ∈ ws1, pyIsSpace ch = true) ∧ (∀ ch ∈ ws2, pyIsSpace ch = true) ∧
      isQuote q1 = true ∧ isQuote q2 = true ∧
      s = key ++ (ws1 ++ ('=' :: (ws2 ++ (q1 :: (v ++ (q2 :: post)))))) := by
  unfold matchKeyValueAt at h
  split at h
  · simp at h
  · rename_i r1 hd
    have hs1 : s = key ++ r1 := dropLit_sound key s r1 hd
    split at h
    · simp at h
    · rename_i e r2 hw1
      split at h
      · rename_i he
        subst he
        split at h
        · simp at h
        · rename_i q r3 hw2
          split at h
          · rename_i hq
            split at h
            · simp at h
            · rename_i q2 post hw3
              split at h
              · simp at h
              · rename_i hv
                obtain rfl : r3.takeWhile (fun ch => !isQuote ch) = v := Option.some_inj.mp h
                have hr1 : r1 = r1.takeWhile pyIsSpace ++ ('=' :: r2) := by
                  conv_lhs => rw [← List.takeWhile_append_dropWhile pyIsSpace r1]
                  rw [hw1]
                have hr2 : r2 = r2.takeWhile pyIsSpace ++ (q :: r3) := by
                  conv_lhs => rw [← List.takeWhile_append_dropWhile pyIsSpace r2]
                  rw [hw2]
                have hr3 : r3 = r3.takeWhile (fun ch => !isQuote ch) ++ (q2 :: post) := by
                  conv_lhs => rw [← List.takeWhile_append_dropWhile (fun ch => !isQuote ch) r3]
                  rw [hw3]
                have hq2 : isQuote q2 = true := by
                  have := dropWhile_head_false (fun ch => !isQuote ch) r3 q2 post hw3
                  simpa using this
                refine ⟨?_, ?_, r1.takeWhile pyIsSpace, r2.takeWhile pyIsSpace, q, q2, post,
                  ?_, ?_, hq, hq2, ?_⟩
                · intro hnil
                  exact hv (by simp [hnil])
                · intro ch hch
                  have := List.mem_takeWhile_imp hch
                  simpa using this
                · intro ch hch
                  exact List.mem_takeWhile_imp hch
                · intro ch hch
                  exact List.mem_takeWhile_imp hch
                · conv_lhs => rw [hs1, hr1, hr2, hr3]
          · simp at h
      · simp at h

/-- The search returns the capture of the leftmost match: some start
position n yields an anchored match with the returned value, and every
earlier start position yields no anchored match at all. -/
theorem reSearchFirst_leftmost (key : List Char) :
    ∀ c v : List Char, reSearchFirst key c = some v →
      ∃ n : Nat, matchKeyValueAt key (c.drop n) = some v ∧
        ∀ m, m < n → matchKeyValueAt key (c.drop m) = none := by
  intro c
  induction c with
  | nil => intro v h; exact absurd h (by simp [reSearchFirst])
  | cons ch rest ih =>
    intro v h
    rw [reSearchFirst] at h
    cases hm : matchKeyValueAt key (ch :: rest) with
    | some w =>
      rw [hm] at h
      obtain rfl : w = v := Option.some_inj.mp h
      exact ⟨0, hm, fun m hmlt => absurd hmlt (by omega)⟩
    | none =>
      rw [hm] at h
      obtain ⟨n, hn, hmin⟩ := ih v h
      refine ⟨n + 1, hn, ?_⟩
      intro m hmlt
      cases m with
      | zero => exact hm
      | succ m2 => exact hmin m2 (by omega)

theorem compareVersions_fst_nil (tv pv iv : List Char) :
    (compareVersions tv pv iv).1 = [] ↔ (tv = pv ∧ tv = iv ∧ pv = iv) := by
  by_cases h1 : tv = pv <;> by_cases h2 : tv = iv <;> by_cases h3 : pv = iv <;>
    simp [compareVersions, h1, h2, h3]

theorem get_pyproject_version_some (c : List Char) :
    get_pyproject_version (some c) =
      match reSearchFirst "version".data c with
      | none => Except.error (outMsg pyNoVersionText)
      | some v => Except.ok v := rfl

theorem get_init_version_some (c : List Char) :
    get_init_version (some c) =
      match reSearchFirst "__version__".data c with
      | none => Except.error (outMsg initNoVersionText)
      | some v => Except.ok v := rfl

theorem mem_ite_err_snd (c : Prop) [Decidable c] (e : List String) (s : String) (m : Msg)
    (hm : m ∈ (if c then (e, ([] : List Msg)) else ([], [outMsg s])).2) : m = outMsg s := by
  split at hm <;> simp_all

theorem compareVersions_snd_chan (tv pv iv : List Char) :
    ∀ m ∈ (compareVersions tv pv iv).2, m.chan = Chan.stdout := by
  intro m hm
  simp only [compareVersions] at hm
  rcases List.mem_append.mp hm with h | h
  · rcases List.mem_append.mp h with h' | h'
    · rw [mem_ite_err_snd _ _ _ m h']; rfl
    · rw [mem_ite_err_snd _ _ _ m h']; rfl
  · rw [mem_ite_err_snd _ _ _ m h]; rfl

theorem check_readme_chan (r : Option (List Char)) (v : List Char) :
    ∀ m ∈ check_readme_version r v, m.chan = Chan.stdout := by
  cases r with
  | none => simp [check_readme_version]
  | some c =>
    cases hb : hasSub v c || hasSub ('v' :: v) c <;>
      simp [check_readme_version, hb, outMsg]

theorem get_pyproject_error_cases (o : Option (List Char)) (m : Msg)
    (h : get_pyproject_version o = Except.error m) :
    m = ⟨Chan.stderr, pyMissingText⟩ ∨ m = outMsg pyNoVersionText := by
  cases o with
  | none =>
    simp [get_pyproject_version] at h
    exact Or.inl h.symm
  | some c =>
    rw [get_pyproject_version_some] at h
    cases hs : reSearchFirst "version".data c with
    | none =>
      rw [hs] at h
      simp at h
      exact Or.inr h.symm
    | some v =>
      rw [hs] at h
      simp at h

theorem get_init_error_chan (o : Option (List Char)) (m : Msg)
    (h : get_init_version o = Except.error m) : m.chan = Chan.stdout := by
  cases o with
  | none =>
    simp [get_init_version] at h
    rw [← h]
    rfl
  | some c =>
    rw [get_init_version_some] at h
    cases hs : reSearchFirst "__version__".data c with
    | none =>
      rw [hs] at h
      simp at h
      rw [← h]
      rfl
    | some v =>
      rw [hs] at h
      simp at h

theorem runTag_exitCode (tag : List Char) (fs : FS) (pv iv : List Char)
    (hpy : get_pyproject_version fs.pyproject = Except.ok pv)
    (hini : get_init_version fs.initFile = Except.ok iv) :
    (runTag tag fs).exitCode =
      if (compareVersions (extract_version_from_tag tag) pv iv).1.isEmpty then 0 else 1 := by
  unfold runTag
  rw [hpy, hini]
  by_cases h : (compareVersions (extract_version_from_tag tag) pv iv).1.isEmpty <;> simp [h]

theorem runTag_readme_exitCode (tag : List Char) (fs : FS) (r : Option (List Char)) :
    (runTag tag { fs with readme := r }).exitCode = (runTag tag fs).exitCode := by
  unfold runTag
  cases hp : get_pyproject_version fs.pyproject with
  | error m => simp [hp]
  | ok pv =>
    cases hi : get_init_version fs.initFile with
    | error m => simp [hp, hi]
    | ok iv =>
      by_cases h : (compareVersions (extract_version_from_tag tag) pv iv).1.isEmpty <;>
        simp [hp, hi, h]

theorem runTag_ok (tag : List Char) (fs : FS) (pv iv : List Char)
    (hpy : get_pyproject_version fs.pyproject = Except.ok pv)
    (hini : get_init_version fs.initFile = Except.ok iv) :
    runTag tag fs =
      if (compareVersions (extract_version_from_tag tag) pv iv).1.isEmpty then
        ⟨preamble tag ++ filePrints pv iv ++
           (compareVersions (extract_version_from_tag tag) pv iv).2 ++
           check_readme_version fs.readme (extract_version_from_tag tag) ++
           [outMsg allPassedText], 0⟩
      else
        ⟨preamble tag ++ filePrints pv iv ++
           (compareVersions (extract_version_from_tag tag) pv iv).2 ++
           check_readme_version fs.readme (extract_version_from_tag tag) ++
           [outMsg failedHeaderText] ++
           (compareVersions (extract_version_from_tag tag) pv iv).1.map
             (fun e => outMsg ("   " ++ e)) ++
           remediationMsgs, 1⟩ := by
  unfold runTag
  rw [hpy, hini]

theorem compareVersions_tag_odd (tv pv iv : List Char) (h1 : pv = iv) (h2 : tv ≠ pv) :
    (compareVersions tv pv iv).1 = [tagPyMismatch tv pv, tagInitMismatch tv iv] := by
  subst h1
  simp [compareVersions, h2]

theorem compareVersions_manifest_odd (tv pv iv : List Char) (h1 : tv = iv) (h2 : pv ≠ tv) :
    (compareVersions tv pv iv).1 = [tagPyMismatch tv pv, pyInitMismatch pv iv] := by
  subst h1
  simp [compareVersions, Ne.symm h2, h2]

theorem compareVersions_module_odd (tv pv iv : List Char) (h1 : tv = pv) (h2 : iv ≠ tv) :
    (compareVersions tv pv iv).1 = [tagInitMismatch tv iv, pyInitMismatch pv iv] := by
  subst h1
  simp [compareVersions, Ne.symm h2]

theorem runTag_ok_out_chan (tag : List Char) (fs : FS) (pv iv : List Char)
    (hpy : get_pyproject_version fs.pyproject = Except.ok pv)
    (hini : get_init_version fs.initFile = Except.ok iv) :
    ∀ m ∈ (runTag tag fs).out, m.chan = Chan.stdout := by
  intro m hm
  rw [runTag_ok tag fs pv iv hpy hini] at hm
  by_cases hc : (compareVersions (extract_version_from_tag tag) pv iv).1.isEmpty
  · rw [if_pos hc] at hm
    simp only [List.mem_append] at hm
    rcases hm with ((((h | h) | h) | h) | h)
    · simp [preamble] at h
      rcases h with rfl | rfl <;> rfl
    · simp [filePrints] at h
      rcases h with rfl | rfl <;> rfl
    · exact compareVersions_snd_chan _ _ _ m h
    · exact check_readme_chan _ _ m h
    · simp at h
      rw [h]
      rfl
  · rw [if_neg hc] at hm
    simp only [List.mem_append] at hm
    rcases hm with ((((((h | h) | h) | h) | h) | h) | h)
    · simp [preamble] at h
      rcases h with rfl | rfl <;> rfl
    · simp [filePrints] at h
      rcases h with rfl | rfl <;> rfl
    · exact compareVersions_snd_chan _ _ _ m h
    · exact check_readme_chan _ _ m h
    · simp at h
      rw [h]
      rfl
    · simp [List.mem_map] at h
      obtain ⟨e, _, rfl⟩ := h
      rfl
    · simp [remediationMsgs] at h
      rcases h with rfl | rfl | rfl | rfl <;> rfl

/-! ### Claim theorems -/

/-- C1: for every invocation in which manifest and module extraction succeed,
the final exit status is a deterministic function of the pairwise string
equalities: it is 0 exactly when the tag version, the manifest version and
the module version are pairwise equal, and the README check (the content or
absence of README.md) never changes the exit status in either direction. -/
theorem exit_status_of_pairwise_equalities (a0 tag : List Char) (fs : FS) (pv iv : List Char)
    (hpy : get_pyproject_version fs.pyproject = Except.ok pv)
    (hini : get_init_version fs.initFile = Except.ok iv) :
    ((main [a0, tag] fs).exitCode = 0 ↔
      (extract_version_from_tag tag = pv ∧ extract_version_from_tag tag = iv ∧ pv = iv)) ∧
    ∀ r, (main [a0, tag] { fs with readme := r }).exitCode = (main [a0, tag] fs).exitCode := by
  constructor
  · show (runTag tag fs).exitCode = 0 ↔ _
    rw [runTag_exitCode tag fs pv iv hpy hini,
      ← compareVersions_fst_nil (extract_version_from_tag tag) pv iv]
    by_cases h : (compareVersions (extract_version_from_tag tag) pv iv).1 = [] <;> simp [h]
  · intro r
    exact runTag_readme_exitCode tag fs r

/-- Witness for the C1 theorem at a concrete consistent project state. -/
theorem exit_status_of_pairwise_equalities_witness :
    (main ["p".data, "v1.0".data]
        ⟨some "version = \"1.0\"".data, some "__version__ = \"1.0\"".data, none⟩).exitCode = 0 :=
  ((exit_status_of_pairwise_equalities "p".data "v1.0".data
      ⟨some "version = \"1.0\"".data, some "__version__ = \"1.0\"".data, none⟩
      "1.0".data "1.0".data (by decide) (by decide)).1).mpr ⟨by decide, by decide, rfl⟩

/-- C2: when exactly one of the three version strings differs from the other
two, the process exits with status 1 and the accumulated mismatch list holds
exactly the two pairwise comparisons involving the differing value, in
program order, and not the third comparison. -/
theorem single_differing_version_reported (a0 tag : List Char) (fs : FS) (pv iv : List Char)
    (hpy : get_pyproject_version fs.pyproject = Except.ok pv)
    (hini : get_init_version fs.initFile = Except.ok iv) :
    (pv = iv ∧ extract_version_from_tag tag ≠ pv →
      (main [a0, tag] fs).exitCode = 1 ∧
      (compareVersions (extract_version_from_tag tag) pv iv).1 =
        [tagPyMismatch (extract_version_from_tag tag) pv,
         tagInitMismatch (extract_version_from_tag tag) iv]) ∧
    (extract_version_from_tag tag = iv ∧ pv ≠ extract_version_from_tag tag →
      (main [a0, tag] fs).exitCode = 1 ∧
      (compareVersions (extract_version_from_tag tag) pv iv).1 =
        [tagPyMismatch (extract_version_from_tag tag) pv, pyInitMismatch pv iv]) ∧
    (extract_version_from_tag tag = pv ∧ iv ≠ extract_version_from_tag tag →
      (main [a0, tag] fs).exitCode = 1 ∧
      (compareVersions (extract_version_from_tag tag) pv iv).1 =
        [tagInitMismatch (extract_version_from_tag tag) iv, pyInitMismatch pv iv]) := by
  have hexit : ∀ l : List String,
      (compareVersions (extract_version_from_tag tag) pv iv).1 = l → l ≠ [] →
      (main [a0, tag] fs).exitCode = 1 := by
    intro l hl hne
    show (runTag tag fs).exitCode = 1
    rw [runTag_exitCode tag fs pv iv hpy hini, hl]
    simp [List.isEmpty_iff, hne]
  refine ⟨fun ⟨h1, h2⟩ => ?_, fun ⟨h1, h2⟩ => ?_, fun ⟨h1, h2⟩ => ?_⟩
  · have hc := compareVersions_tag_odd (extract_version_from_tag tag) pv iv h1 h2
    exact ⟨hexit _ hc (by simp), hc⟩
  · have hc := compareVersions_manifest_odd (extract_version_from_tag tag) pv iv h1 h2
    exact ⟨hexit _ hc (by simp), hc⟩
  · have hc := compareVersions_module_odd (extract_version_from_tag tag) pv iv h1 h2
    exact ⟨hexit _ hc (by simp), hc⟩

/-- Witness for the C2 theorem: manifest and module agree on 2.0 while the
tag gives 1.0, so exactly the two tag comparisons are reported. -/
theorem single_differing_version_reported_witness :
    (main ["p".data, "v1.0".data]
        ⟨some "version = \"2.0\"".data, some "__version__ = \"2.0\"".data, none⟩).exitCode = 1 ∧
    (compareVersions (extract_version_from_tag "v1.0".data) "2.0".data "2.0".data).1 =
      [tagPyMismatch (extract_version_from_tag "v1.0".data) "2.0".data,
       tagInitMismatch (extract_version_from_tag "v1.0".data) "2.0".data] :=
  (single_differing_version_reported "p".data "v1.0".data
      ⟨some "version = \"2.0\"".data, some "__version__ = \"2.0\"".data, none⟩
      "2.0".data "2.0".data (by decide) (by decide)).1 ⟨rfl, by decide⟩

/-- C3: a tag of the form `v<X>` extracts to `<X>`; a tag not beginning with
a lowercase `v` is returned unchanged; only a single leading `v` is removed,
so `vv1.0` yields `v1.0`. -/
theorem tag_extraction_strips_single_v :
    (∀ x : List Char, extract_version_from_tag ('v' :: x) = x) ∧
    (∀ t : List Char, t.head? ≠ some 'v' → extract_version_from_tag t = t) ∧
    extract_version_from_tag "vv1.0".data = "v1.0".data := by
  refine ⟨fun x => rfl, fun t ht => ?_, by decide⟩
  cases t with
  | nil => rfl
  | cons c cs =>
    have hc : ¬ ('v' = c) := fun h => ht (by simp [h.symm])
    simp [extract_version_from_tag, leadsWith, hc]

/-- Witness for the C3 theorem at a tag without a leading `v`. -/
theorem tag_extraction_strips_single_v_witness :
    extract_version_from_tag "1.0".data = "1.0".data :=
  tag_extraction_strips_single_v.2.1 "1.0".data (by decide)

/-- C9: the tag strip is case-sensitive: a tag beginning with uppercase `V`
is returned unchanged, so `V1.2.0` never equals the bare version `1.2.0`. -/
theorem uppercase_V_tag_not_stripped :
    extract_version_from_tag "V1.2.0".data = "V1.2.0".data ∧
    extract_version_from_tag "V1.2.0".data ≠ "1.2.0".data ∧
    ∀ rest : List Char, extract_version_from_tag ('V' :: rest) = 'V' :: rest :=
  ⟨by decide, by decide, fun rest => rfl⟩

/-- C4: a missing mandatory input file (manifest or module file) terminates
the run with exit status 1 and a single diagnostic naming the missing path;
the full output is the preamble plus that diagnostic, so no version
comparison is attempted or printed. -/
theorem missing_mandatory_file_fatal (a0 tag : List Char) (fs : FS) :
    (fs.pyproject = none →
      main [a0, tag] fs = ⟨preamble tag ++ [⟨Chan.stderr, pyMissingText⟩], 1⟩) ∧
    (∀ pv, get_pyproject_version fs.pyproject = Except.ok pv → fs.initFile = none →
      main [a0, tag] fs = ⟨preamble tag ++ [outMsg initMissingText], 1⟩) := by
  constructor
  · intro h
    show runTag tag fs = _
    unfold runTag
    rw [h]
    rfl
  · intro pv hpv h
    show runTag tag fs = _
    unfold runTag
    rw [hpv, h]
    rfl

/-- Witness for the C4 theorem: no `pyproject.toml` at all. -/
theorem missing_mandatory_file_fatal_witness :
    main ["p".data, "v1.0".data] ⟨none, none, none⟩ =
      ⟨preamble "v1.0".data ++ [⟨Chan.stderr, pyMissingText⟩], 1⟩ :=
  (missing_mandatory_file_fatal "p".data "v1.0".data ⟨none, none, none⟩).1 rfl

/-- C5: a mandatory file that exists but contains no occurrence of its
version-assignment pattern terminates the run with exit status 1 and a
could-not-find-version diagnostic naming the file; the full output is the
preamble plus that diagnostic, so no comparison is attempted. -/
theorem missing_mandatory_pattern_fatal (a0 tag : List Char) (fs : FS) :
    (∀ c, fs.pyproject = some c → reSearchFirst "version".data c = none →
      main [a0, tag] fs = ⟨preamble tag ++ [outMsg pyNoVersionText], 1⟩) ∧
    (∀ pv c, get_pyproject_version fs.pyproject = Except.ok pv →
      fs.initFile = some c → reSearchFirst "__version__".data c = none →
      main [a0, tag] fs = ⟨preamble tag ++ [outMsg initNoVersionText], 1⟩) := by
  constructor
  · intro c hc hs
    show runTag tag fs = _
    unfold runTag
    rw [hc, get_pyproject_version_some, hs]
  · intro pv c hpv hc hs
    show runTag tag fs = _
    unfold runTag
    rw [hpv, hc, get_init_version_some, hs]

/-- Witness for the C5 theorem: a manifest with no version assignment. -/
theorem missing_mandatory_pattern_fatal_witness :
    main ["p".data, "v1.0".data] ⟨some "name = true".data, none, none⟩ =
      ⟨preamble "v1.0".data ++ [outMsg pyNoVersionText], 1⟩ :=
  (missing_mandatory_pattern_fatal "p".data "v1.0".data
      ⟨some "name = true".data, none, none⟩).1 "name = true".data rfl (by decide)

/-- C6: the README check is purely advisory: with no README it prints
nothing; with a README it prints the success message exactly when the bare
version or its v-prefixed form occurs as a substring of the content, and the
warning message exactly otherwise; and the README content or absence never
changes the exit status of any invocation. -/
theorem readme_check_advisory :
    (∀ v : List Char, check_readme_version none v = []) ∧
    (∀ v c : List Char,
      (check_readme_version (some c) v = [outMsg readmeFoundText] ↔
        (v <:+: c ∨ ('v' :: v) <:+: c)) ∧
      (check_readme_version (some c) v = [outMsg readmeWarnText] ↔
        ¬(v <:+: c ∨ ('v' :: v) <:+: c))) ∧
    (∀ argv : List (List Char), ∀ fs : FS, ∀ r : Option (List Char),
      (main argv { fs with readme := r }).exitCode = (main argv fs).exitCode) := by
  have htext : readmeFoundText ≠ readmeWarnText := by decide
  refine ⟨fun v => rfl, fun v c => ?_, fun argv fs r => ?_⟩
  · have hiff : (hasSub v c || hasSub ('v' :: v) c) = true ↔
        (v <:+: c ∨ ('v' :: v) <:+: c) := by
      simp [hasSub_iff]
    cases hb : hasSub v c || hasSub ('v' :: v) c with
    | true =>
      have hp : v <:+: c ∨ ('v' :: v) <:+: c := hiff.mp hb
      constructor
      · simp [check_readme_version, hb, hp]
      · simp [check_readme_version, outMsg, hb, hp, htext]
    | false =>
      have hp : ¬(v <:+: c ∨ ('v' :: v) <:+: c) := fun hcon => by
        rw [hiff.mpr hcon] at hb
        simp at hb
      constructor
      · simp [check_readme_version, outMsg, hb, hp, Ne.symm htext]
      · simp [check_readme_version, hb, hp]
  · match argv with
    | [a0, tag] => exact runTag_readme_exitCode tag fs r
    | [] => rfl
    | [a] => rfl
    | a :: b :: c :: rest => rfl

/-- C10: after both mandatory extractions succeed, the output contains the
README-check messages computed from the tag-derived version (never the
manifest or module version). -/
theorem readme_checked_against_tag_version (a0 tag : List Char) (fs : FS) (pv iv : List Char)
    (hpy : get_pyproject_version fs.pyproject = Except.ok pv)
    (hini : get_init_version fs.initFile = Except.ok iv) :
    ∃ pre post : List Msg,
      (main [a0, tag] fs).out =
        pre ++ check_readme_version fs.readme (extract_version_from_tag tag) ++ post := by
  show ∃ pre post, (runTag tag fs).out = _
  rw [runTag_ok tag fs pv iv hpy hini]
  by_cases h : (compareVersions (extract_version_from_tag tag) pv iv).1.isEmpty
  · rw [if_pos h]
    exact ⟨preamble tag ++ filePrints pv iv ++
        (compareVersions (extract_version_from_tag tag) pv iv).2,
      [outMsg allPassedText], by simp [List.append_assoc]⟩
  · rw [if_neg h]
    exact ⟨preamble tag ++ filePrints pv iv ++
        (compareVersions (extract_version_from_tag tag) pv iv).2,
      [outMsg failedHeaderText] ++
        (compareVersions (extract_version_from_tag tag) pv iv).1.map
          (fun e => outMsg ("   " ++ e)) ++ remediationMsgs,
      by simp [List.append_assoc]⟩

/-- Witness for the C10 theorem: manifest and module agree on 2.0, the tag
gives 1.0, and the README mentions only 2.0; the README segment is computed
from the tag version. -/
theorem readme_checked_against_tag_version_witness :
    ∃ pre post : List Msg,
      (main ["p".data, "v1.0".data]
          ⟨some "version = \"2.0\"".data, some "__version__ = \"2.0\"".data,
           some "docs for 2.0".data⟩).out =
        pre ++ check_readme_version (some "docs for 2.0".data)
          (extract_version_from_tag "v1.0".data) ++ post :=
  readme_checked_against_tag_version "p".data "v1.0".data
    ⟨some "version = \"2.0\"".data, some "__version__ = \"2.0\"".data,
     some "docs for 2.0".data⟩ "2.0".data "2.0".data (by decide) (by decide)

/-- C7 counterexample: in content holding `my_version = "9.9"` before
`version = "1.0"`, the manifest extractor returns `9.9`, captured from the
key `my_version`, which merely ends in `version`: the pattern has no word
boundary, so the value does not come from the key literally named
`version`, whose value here is `1.0`. -/
theorem pyproject_extractor_key_counterexample :
    get_pyproject_version (some "my_version = \"9.9\"\nversion = \"1.0\"".data) =
      Except.ok "9.9".data ∧
    "9.9".data ≠ "1.0".data := ⟨by decide, by decide⟩

/-- C7 (amended): whenever the manifest extractor returns a value `v`, the
content decomposes as arbitrary leading text `pre`, the literal characters
`version`, optional whitespace, `=`, optional whitespace, an opening quote,
the nonempty quote-free value `v`, a closing quote and a remainder, and
this is the FIRST occurrence: at every start position before the end of
`pre` the anchored pattern does not match.  The leading text is otherwise
unconstrained, so a key merely ending in `version` can be the source, and
the two delimiters are each independently a single or double quote. -/
theorem pyproject_extractor_pattern_occurrence (c v : List Char)
    (h : get_pyproject_version (some c) = Except.ok v) :
    v ≠ [] ∧ (∀ ch ∈ v, isQuote ch = false) ∧
    ∃ pre ws1 ws2 : List Char, ∃ q1 q2 : Char, ∃ post : List Char,
      (∀ ch ∈ ws1, pyIsSpace ch = true) ∧ (∀ ch ∈ ws2, pyIsSpace ch = true) ∧
      isQuote q1 = true ∧ isQuote q2 = true ∧
      c = pre ++ ("version".data ++ (ws1 ++ ('=' :: (ws2 ++ (q1 :: (v ++ (q2 :: post))))))) ∧
      ∀ m, m < pre.length → matchKeyValueAt "version".data (c.drop m) = none := by
  rw [get_pyproject_version_some] at h
  cases hs : reSearchFirst "version".data c with
  | none =>
    rw [hs] at h
    simp at h
  | some w =>
    rw [hs] at h
    simp at h
    subst h
    obtain ⟨n, hn, hmin⟩ := reSearchFirst_leftmost "version".data c w hs
    obtain ⟨hne, hnq, ws1, ws2, q1, q2, post, h1, h2, h3, h4, h5⟩ :=
      matchKeyValueAt_sound "version".data (c.drop n) w hn
    have hnle : n ≤ c.length := by
      by_contra hgt
      push_neg at hgt
      rw [List.drop_eq_nil_of_le (le_of_lt hgt)] at hn
      rw [show matchKeyValueAt "version".data [] = none from rfl] at hn
      exact absurd hn (by simp)
    refine ⟨hne, hnq, c.take n, ws1, ws2, q1, q2, post, h1, h2, h3, h4, ?_, ?_⟩
    · conv_lhs => rw [← List.take_append_drop n c, h5]
    · intro m hm
      rw [List.length_take] at hm
      exact hmin m (by omega)

/-- Witness for the amended C7 theorem at a concrete manifest. -/
theorem pyproject_extractor_pattern_occurrence_witness :
    "1.0".data ≠ [] ∧ (∀ ch ∈ "1.0".data, isQuote ch = false) ∧
    ∃ pre ws1 ws2 : List Char, ∃ q1 q2 : Char, ∃ post : List Char,
      (∀ ch ∈ ws1, pyIsSpace ch = true) ∧ (∀ ch ∈ ws2, pyIsSpace ch = true) ∧
      isQuote q1 = true ∧ isQuote q2 = true ∧
      "version = \"1.0\"".data =
        pre ++ ("version".data ++
          (ws1 ++ ('=' :: (ws2 ++ (q1 :: ("1.0".data ++ (q2 :: post))))))) ∧
      ∀ m, m < pre.length →
        matchKeyValueAt "version".data ("version = \"1.0\"".data.drop m) = none :=
  pyproject_extractor_pattern_occurrence "version = \"1.0\"".data "1.0".data (by decide)

/-- C8 counterexample: with `pyproject.toml` missing, the run prints its
missing-manifest diagnostic on standard error, so not every message goes to
standard output. -/
theorem stderr_diagnostic_counterexample :
    (⟨Chan.stderr, pyMissingText⟩ : Msg) ∈
      (main ["p".data, "v1.0".data] ⟨none, none, none⟩).out ∧
    (⟨Chan.stderr, pyMissingText⟩ : Msg).chan = Chan.stderr := ⟨by decide, rfl⟩

/-- C8 (amended): every message of every invocation is written to standard
output, with the single exception of the missing-manifest diagnostic
(`pyproject.toml` not found), which is written to standard error. -/
theorem output_on_stdout_except_missing_manifest (argv : List (List Char)) (fs : FS) :
    ∀ m ∈ (main argv fs).out, m.chan = Chan.stderr →
      m = ⟨Chan.stderr, pyMissingText⟩ := by
  rcases argv with _ | ⟨a0, _ | ⟨tag, _ | ⟨c0, rest⟩⟩⟩
  · intro m hm hchan
    simp [main, usageMsgs] at hm
    rcases hm with rfl | rfl <;> simp [outMsg] at hchan
  · intro m hm hchan
    simp [main, usageMsgs] at hm
    rcases hm with rfl | rfl <;> simp [outMsg] at hchan
  · intro m hm hchan
    have hm' : m ∈ (runTag tag fs).out := hm
    cases hp : get_pyproject_version fs.pyproject with
    | error me =>
      have hrun : runTag tag fs = ⟨preamble tag ++ [me], 1⟩ := by
        unfold runTag
        rw [hp]
      rw [hrun] at hm'
      rcases List.mem_append.mp hm' with h | h
      · simp [preamble] at h
        rcases h with rfl | rfl <;> simp [outMsg] at hchan
      · simp at h
        rcases get_pyproject_error_cases _ me hp with h2 | h2
        · rw [h, h2]
        · rw [h, h2] at hchan
          simp [outMsg] at hchan
    | ok pv =>
      cases hi : get_init_version fs.initFile with
      | error me =>
        have hrun : runTag tag fs = ⟨preamble tag ++ [me], 1⟩ := by
          unfold runTag
          rw [hp, hi]
        rw [hrun] at hm'
        rcases List.mem_append.mp hm' with h | h
        · simp [preamble] at h
          rcases h with rfl | rfl <;> simp [outMsg] at hchan
        · simp at h
          rw [h, get_init_error_chan _ me hi] at hchan
          simp at hchan
      | ok iv =>
        rw [runTag_ok_out_chan tag fs pv iv hp hi m hm'] at hchan
        simp at hchan
  · intro m hm hchan
    simp [main, usageMsgs] at hm
    rcases hm with rfl | rfl <;> simp [outMsg] at hchan

/-- Witness for the amended C8 theorem: the missing-manifest run does print
a standard-error message, and it is exactly the missing-manifest
diagnostic. -/
theorem output_on_stdout_except_missing_manifest_witness :
    (⟨Chan.stderr, pyMissingText⟩ : Msg) = ⟨Chan.stderr, pyMissingText⟩ :=
  output_on_stdout_except_missing_manifest ["q".data, "v2.0".data] ⟨none, some [] , none⟩
    ⟨Chan.stderr, pyMissingText⟩ (by decide) rfl

end VerifyVersion

